import Mathlib

/-!
Verification development for `tensorlayer/layers/time_distribution.py`
(`TimeDistributedLayer`).

The layer applies a user-supplied inner layer class to every timestep of a
3-D tensor of shape (batch, time, feature), sharing one set of trainable
parameters across timesteps via TensorFlow variable-scope reuse.

Embedding choices:
- tensors are nested lists (`Tensor2`, `Tensor3`) with explicit static
  shapes carried alongside the data where the code reads `get_shape()`;
- the TensorFlow global variable registry is an explicit state
  (`TFState`), and `tf.get_variable` under a scope with a reuse flag is
  `getVariable`: with `reuse = true` it looks an existing variable up
  (error when absent), with `reuse = false` it creates a fresh variable
  (error when the name already exists);
- variable names are slash-separated paths, modelled structurally as
  `List String`; the `scope=` filter of `tf.get_collection` is a path
  prefix test;
- the user-supplied inner layer class is abstract (`InnerLayerClass`):
  a list of parameter specifications (relative name and shape) that it
  creates or reuses under its scope, an initializer, and a pure compute
  function from parameter values and a 2-D input slice to a 2-D output
  slice;
- Python exceptions (`KeyError` on `layer_args['name']`, `IndexError`
  from `tf.stack` on an empty slice list, `AttributeError` on the
  never-assigned `_local_weights`, TensorFlow variable-scope errors) are
  an `Except TLError` result.
-/

namespace TimeDistributed

/-- A 1-D tensor: a list of scalars. -/
abbrev Tensor1 (α : Type) := List α

/-- A 2-D tensor (batch, feature): a list of rows. -/
abbrev Tensor2 (α : Type) := List (List α)

/-- A 3-D tensor (batch, time, feature): a list of 2-D matrices. -/
abbrev Tensor3 (α : Type) := List (List (List α))

/-- Errors surfaced during graph construction: Python `KeyError` and
`AttributeError`, and the two TensorFlow variable-scope failures
(getting a non-existent variable with `reuse=True`, re-creating an
existing variable with `reuse=False`). -/
inductive TLError : Type
  | keyError (k : String)
  | attributeError (a : String)
  | indexError (msg : String)
  | varNotFound (n : List String)
  | varExists (n : List String)
deriving DecidableEq, Repr

/-- A trainable variable in the global registry: a slash-separated path
name (stored as its list of components), a static shape, and a value. -/
structure Variable (π : Type) where
  name : List String
  shape : List Nat
  value : π
deriving DecidableEq, Repr

/-- The TensorFlow global state: the `TF_GRAPHKEYS_VARIABLES` collection,
in creation order. -/
structure TFState (π : Type) where
  registry : List (Variable π)
deriving DecidableEq, Repr

variable {α π : Type}

/-- Look a variable up by full path name in the global registry. -/
def findVar (st : TFState π) (n : List String) : Option (Variable π) :=
  st.registry.find? (fun v => v.name == n)

/-- `tf.get_variable` semantics under a scope with a `reuse` flag:
reuse looks the name up and fails when absent; non-reuse creates the
variable from the initializer and fails when the name already exists. -/
def getVariable (st : TFState π) (reuse : Bool) (n : List String)
    (shape : List Nat) (init : π) : Except TLError (π × TFState π) :=
  if reuse then
    match findVar st n with
    | some v => .ok (v.value, st)
    | none => .error (.varNotFound n)
  else
    match findVar st n with
    | some _ => .error (.varExists n)
    | none => .ok (init, ⟨st.registry ++ [⟨n, shape, init⟩]⟩)

/-- `tf.get_collection(TF_GRAPHKEYS_VARIABLES, scope=s)`: the variables
whose path name starts with the scope path. -/
def getCollection (st : TFState π) (scope : List String) : List (Variable π) :=
  st.registry.filter (fun v => scope.isPrefixOf v.name)

/-- Abstract model of the user-supplied inner layer class
(`layer_class`).  Instantiating it under a variable scope creates or
reuses the parameters in `paramSpecs` (relative name and shape, in
order, initialized by `init`) and computes a 2-D output slice from the
parameter values and the 2-D input slice. -/
structure InnerLayerClass (α π : Type) where
  paramSpecs : List (String × List Nat)
  init : Nat → π
  compute : List π → Tensor2 α → Tensor2 α

/-- The `layer_args` configuration mapping.  Only its `'name'` key is read
by `TimeDistributedLayer.__call__` (line 110); the remaining entries are
folded into the behaviour of `InnerLayerClass`. -/
structure LayerArgs where
  nameKey : Option String
deriving DecidableEq, Repr

/-- `self.layer_args['name']`: a Python dictionary lookup, raising
`KeyError` when the key is missing. -/
def LayerArgs.getName (a : LayerArgs) : Except TLError String :=
  match a.nameKey with
  | some n => .ok n
  | none => .error (.keyError "name")

/-- The reuse flag of iteration `i` of the per-timestep loop:
`reuse = is_name_reuse if i == 0 else True` (line 107), where
`is_name_reuse` is the enclosing scope's reuse flag. -/
def reuseFlag (outerReuse : Bool) (i : Nat) : Bool :=
  if i = 0 then outerReuse else true

/-- Create or reuse the inner layer's parameters, in order, under the
path prefix `pfx` (the enclosing variable scope plus the inner layer's
own name scope), returning their values. -/
def getParams (cls : InnerLayerClass α π) (pfx : List String) (reuse : Bool) :
    List (String × List Nat) → Nat → TFState π →
    Except TLError (List π × TFState π)
  | [], _, st => .ok ([], st)
  | (rel, shp) :: rest, k, st =>
    match getVariable st reuse (pfx ++ [rel]) shp (cls.init k) with
    | .error e => .error e
    | .ok (v, st1) =>
      match getParams cls pfx reuse rest (k + 1) st1 with
      | .error e => .error e
      | .ok (vs, st2) => .ok (v :: vs, st2)

/-- One instantiation `layer_class(InputLayer(slice), **layer_args)` under
the variable scope `scopeName` with the given reuse flag: create or
reuse the parameters under `scopeName ++ [argsName]` and compute the
output slice.  The `InputLayer` adapter creates no variables. -/
def innerInstantiate (cls : InnerLayerClass α π) (scopeName : List String)
    (argsName : String) (reuse : Bool) (input : Tensor2 α) (st : TFState π) :
    Except TLError (Tensor2 α × TFState π) :=
  match getParams cls (scopeName ++ [argsName]) reuse cls.paramSpecs 0 st with
  | .error e => .error e
  | .ok (ps, st1) => .ok (cls.compute ps input, st1)

/-- The per-timestep loop of `__call__` (lines 105-115): for each slice,
read `layer_args['name']` (line 110, `KeyError` when missing), open the
scope `self.name` with `reuse = is_name_reuse if i == 0 else True`,
instantiate the inner layer on the slice, overwrite the slice with the
output, and set `self._local_weights` to the collection of variables
under the scope.  The third component of the result is the current value
of `_local_weights` (`none` while still unassigned). -/
def tdLoop (cls : InnerLayerClass α π) (layerName : String) (args : LayerArgs)
    (outerReuse : Bool) :
    List (Tensor2 α) → Nat → TFState π → Option (List (Variable π)) →
    Except TLError (List (Tensor2 α) × TFState π × Option (List (Variable π)))
  | [], _, st, lw => .ok ([], st, lw)
  | s :: rest, i, st, _lw =>
    match args.getName with
    | .error e => .error e
    | .ok argsName =>
      match innerInstantiate cls [layerName] argsName (reuseFlag outerReuse i) s st with
      | .error e => .error e
      | .ok (out, st1) =>
        match tdLoop cls layerName args outerReuse rest (i + 1) st1
            (some (getCollection st1 [layerName])) with
        | .error e => .error e
        | .ok (outs, st2, lwF) => .ok (out :: outs, st2, lwF)

/-- A 2-D tensor together with its static shape (batch, feature). -/
structure TFTensor2 (α : Type) where
  shape : Nat × Nat
  data : Tensor2 α
deriving DecidableEq, Repr

/-- A 3-D tensor together with its static shape (batch, time, feature),
as read by `self.inputs.get_shape()` (line 97). -/
structure TFTensor3 (α : Type) where
  shape : Nat × Nat × Nat
  data : Tensor3 α
deriving DecidableEq, Repr

/-- Well-formedness of a 2-D tensor with respect to a (batch, feature)
shape. -/
def wf2 (B D : Nat) (t : Tensor2 α) : Prop :=
  t.length = B ∧ ∀ r ∈ t, r.length = D

/-- Well-formedness of a 3-D tensor with respect to a
(batch, time, feature) shape. -/
def wf3 (B T D : Nat) (t : Tensor3 α) : Prop :=
  t.length = B ∧ ∀ m ∈ t, m.length = T ∧ ∀ r ∈ m, r.length = D

instance (B D : Nat) (t : Tensor2 α) : Decidable (wf2 B D t) :=
  inferInstanceAs (Decidable (t.length = B ∧ ∀ r ∈ t, r.length = D))

instance (B T D : Nat) (t : Tensor3 α) : Decidable (wf3 B T D t) :=
  inferInstanceAs
    (Decidable (t.length = B ∧ ∀ m ∈ t, m.length = T ∧ ∀ r ∈ m, r.length = D))

/-- Length of the first element (0 when empty): the size of axis 0 of the
elements of a nested list. -/
def dim0 (xs : List (List β)) : Nat :=
  (xs.head?.map List.length).getD 0

/-- `tf.transpose(·, [1, 0, 2])` on a nested-list 3-D tensor: swap the
outer two axes.  The same operation implements `tf.stack(x, axis=1)`
applied to a list `x` of 2-D slices, since stacking on axis 0 is the
identity on the nested-list representation. -/
def transpose102 (xs : Tensor3 α) : Tensor3 α :=
  (List.range (dim0 xs)).map (fun b => xs.map (fun m => m.getD b []))

/-- `tf.unstack(t, axis=1)` producing `T` slices (the static time
dimension): slice `i` is `t[:, i, :]`. -/
def unstack1 (T : Nat) (t : Tensor3 α) : List (Tensor2 α) :=
  (List.range T).map (fun i => t.map (fun m => m.getD i []))

/-- `tf.stack(xs, axis=1)`: with `axis != 0` TensorFlow's `stack` first
evaluates `values[0]` to read the element shape, so an empty list raises
`IndexError` (list index out of range); a nonempty list of 2-D slices is
stacked along a new time axis, which on the nested-list representation
is the outer-two-axes transpose. -/
def stackAxis1 (xs : List (Tensor2 α)) : Except TLError (Tensor3 α) :=
  match xs with
  | [] => .error (.indexError "list index out of range")
  | _ => .ok (transpose102 xs)

/-- The previous layer's output, as received by `__call__`: either a
single 3-D tensor or a Python sequence of per-timestep 2-D tensors
(line 94 checks `isinstance(self.inputs, tf.Tensor)`). -/
inductive TDInput (α : Type) : Type
  | tensor (t : TFTensor3 α)
  | seq (ts : List (TFTensor2 α))
deriving DecidableEq

/-- Static shape of `tf.transpose(tf.stack(ts), [1, 0, 2])` for a
sequence `ts` of (B, D) tensors: (B, len ts, D). -/
def seqShape (ts : List (TFTensor2 α)) : Nat × Nat × Nat :=
  match ts with
  | [] => (0, 0, 0)
  | t :: _ => (t.shape.1, ts.length, t.shape.2)

/-- Line 94-95: when the input is not a single tensor, normalize it with
`tf.transpose(tf.stack(self.inputs), [1, 0, 2])`; a single tensor is
left unchanged. -/
def normalize (input : TDInput α) : TFTensor3 α :=
  match input with
  | .tensor t => t
  | .seq ts => ⟨seqShape ts, transpose102 (ts.map (fun t => t.data))⟩

/-- What a successful `__call__` registers with the framework: the
stacked output tensor (`self.outputs`, passed to `_add_layers`) and the
captured parameter list (`self._local_weights`, passed to
`_add_params`). -/
structure CallResult (α π : Type) where
  outputs : Tensor3 α
  all_params : List (Variable π)
deriving DecidableEq, Repr

/-- `TimeDistributedLayer.__call__` (lines 90-120): normalize the input,
read the static time dimension, unstack along axis 1, run the
per-timestep loop, restack along axis 1 (line 117, which raises
`IndexError` when the slice list is empty, before lines 119-120 run),
and register outputs and the captured parameters.  When the restack
succeeds but the loop never ran, `self._local_weights` was never
assigned and line 120 raises `AttributeError` (unreachable in practice,
since an empty loop already makes line 117 fail). -/
def timeDistributedCall (cls : InnerLayerClass α π) (layerName : String)
    (args : LayerArgs) (input : TDInput α) (outerReuse : Bool) (st : TFState π) :
    Except TLError (CallResult α π × TFState π) :=
  let inputs := normalize input
  let timestep := inputs.shape.2.1
  let x := unstack1 timestep inputs.data
  match tdLoop cls layerName args outerReuse x 0 st none with
  | .error e => .error e
  | .ok (outs, st1, lw) =>
    match stackAxis1 outs with
    | .error e => .error e
    | .ok outputs =>
      match lw with
      | some ws => .ok (⟨outputs, ws⟩, st1)
      | none => .error (.attributeError "_local_weights")

/-- The variables a fresh (non-reusing) instantiation of the inner layer
creates under path prefix `pfx`, in creation order, with initializer
offset `k`. -/
def mkParams (cls : InnerLayerClass α π) (pfx : List String) :
    List (String × List Nat) → Nat → List (Variable π)
  | [], _ => []
  | (rel, shp) :: rest, k =>
    ⟨pfx ++ [rel], shp, cls.init k⟩ :: mkParams cls pfx rest (k + 1)

/-- The parameter values a fresh instantiation hands to `compute`: the
initializer at consecutive offsets. -/
def specValues (cls : InnerLayerClass α π) :
    List (String × List Nat) → Nat → List π
  | [], _ => []
  | _ :: rest, k => cls.init k :: specValues cls rest (k + 1)

/-- The relative parameter names of an inner layer class are distinct
(TensorFlow would reject duplicate creation in one scope anyway). -/
def relsNodup (cls : InnerLayerClass α π) : Prop :=
  (cls.paramSpecs.map Prod.fst).Nodup

instance (cls : InnerLayerClass α π) : Decidable (relsNodup cls) :=
  inferInstanceAs (Decidable (List.Nodup _))

/-- The attribute state read by `__str__`: `self.layer_class.__name__`
and `self.layer_args` may each be unavailable (attribute unset, or
`layer_class` is `None` and has no `__name__`), in which case the access
raises `AttributeError`. -/
structure TDInstance where
  layerClassName : Option String
  layerArgsRepr : Option String
deriving DecidableEq, Repr

/-- A Python attribute access: raises `AttributeError` when the attribute
is unavailable. -/
def getAttr (o : Option β) (a : String) : Except TLError β :=
  match o with
  | some v => .ok v
  | none => .error (.attributeError a)

/-- The `additional_str` list built by `__str__` (lines 75-85): each
fragment is appended inside a `try`/`except AttributeError` block, so a
failing attribute access silently skips the fragment. -/
def tdStrFragments (inst : TDInstance) : List String :=
  (match getAttr inst.layerClassName "layer_class" with
   | .ok n => ["layer_class: " ++ n]
   | .error _ => []) ++
  (match getAttr inst.layerArgsRepr "layer_args" with
   | .ok s => ["layer_args: " ++ s]
   | .error _ => [])

/-- Modelled from the spec: the base class `Layer._str` (in
`tensorlayer/layers/core.py`, not part of the sources here) renders the
instance description from the fragment list; it is kept abstract as the
`baseStr` argument.  `__str__` returns `self._str(additional_str)`
(line 87); the `Except` result records whether an exception escapes. -/
def tdStr (inst : TDInstance) (baseStr : List String → String) :
    Except TLError String :=
  .ok (baseStr (tdStrFragments inst))

/-- `__str__` as a state transformer on the instance: it reads attributes
but never writes, so it returns the rendered string and the (unchanged)
instance state. -/
def tdStrRun (inst : TDInstance) (baseStr : List String → String) :
    String × TDInstance :=
  (baseStr (tdStrFragments inst), inst)

/-! ### Concrete instances used to exercise the model -/

/-- A concrete inner layer class used to exercise the model: two
parameters `W` and `b`, and a compute function mapping every (batch,
feature) slice to a (batch, 1) slice. -/
def clsEx : InnerLayerClass Nat Nat where
  paramSpecs := [("W", [2, 1]), ("b", [1])]
  init := fun k => k + 7
  compute := fun ps s => s.map (fun r => [r.sum + ps.sum])

/-- A concrete (2, 3, 2) input tensor. -/
def dataEx : Tensor3 Nat :=
  [[[1, 2], [3, 4], [5, 6]], [[7, 8], [9, 10], [11, 12]]]

/-- A concrete (2, 5, 2) input tensor. -/
def dataEx5 : Tensor3 Nat :=
  [[[1, 0], [0, 1], [2, 2], [3, 3], [4, 4]],
   [[5, 5], [6, 6], [7, 7], [8, 8], [9, 9]]]

/-- A concrete (2, 1, 2) input tensor. -/
def dataEx1 : Tensor3 Nat := [[[1, 2]], [[3, 4]]]

/-- A concrete sequence of two (2, 2) per-timestep tensors. -/
def seqEx : List (TFTensor2 Nat) :=
  [⟨(2, 2), [[1, 2], [7, 8]]⟩, ⟨(2, 2), [[3, 4], [9, 10]]⟩]

/-! ### Helper lemmas about the variable registry -/

theorem findVar_nil (n : List String) : findVar (⟨[]⟩ : TFState π) n = none := rfl

theorem findVar_cons (v : Variable π) (R : List (Variable π)) (n : List String) :
    findVar (⟨v :: R⟩ : TFState π) n =
      if v.name = n then some v else findVar (⟨R⟩ : TFState π) n := by
  by_cases h : v.name = n <;> simp [findVar, List.find?_cons, h]

theorem findVar_append_singleton {R : List (Variable π)} (v : Variable π)
    {n : List String} (h : findVar (⟨R⟩ : TFState π) n = none) :
    findVar (⟨R ++ [v]⟩ : TFState π) n = if v.name = n then some v else none := by
  unfold findVar at h ⊢
  rw [List.find?_append, h]
  by_cases hv : v.name = n <;> simp [List.find?_cons, hv]

theorem getParams_fresh (cls : InnerLayerClass α π) (pfx : List String)
    (specs : List (String × List Nat)) :
    ∀ (k : Nat) (R : List (Variable π)),
    (specs.map Prod.fst).Nodup →
    (∀ p ∈ specs, findVar (⟨R⟩ : TFState π) (pfx ++ [p.1]) = none) →
    getParams cls pfx false specs k ⟨R⟩ =
      .ok (specValues cls specs k, ⟨R ++ mkParams cls pfx specs k⟩) := by
  induction specs with
  | nil => intro k R _ _; simp [getParams, specValues, mkParams]
  | cons p rest ih =>
    intro k R hnd hfresh
    obtain ⟨rel, shp⟩ := p
    have hndr : rel ∉ rest.map Prod.fst ∧ (rest.map Prod.fst).Nodup := by
      simpa [List.nodup_cons] using hnd
    have hfr : findVar (⟨R⟩ : TFState π) (pfx ++ [rel]) = none :=
      hfresh (rel, shp) (List.mem_cons_self _ _)
    have hstep : getVariable (⟨R⟩ : TFState π) false (pfx ++ [rel]) shp (cls.init k)
        = .ok (cls.init k, ⟨R ++ [⟨pfx ++ [rel], shp, cls.init k⟩]⟩) := by
      simp [getVariable, hfr]
    have hfresh2 : ∀ q ∈ rest,
        findVar (⟨R ++ [(⟨pfx ++ [rel], shp, cls.init k⟩ : Variable π)]⟩ : TFState π)
          (pfx ++ [q.1]) = none := by
      intro q hq
      rw [findVar_append_singleton _ (hfresh q (List.mem_cons_of_mem _ hq))]
      have hne : rel ≠ q.1 := fun hEq => hndr.1 (hEq ▸ List.mem_map_of_mem Prod.fst hq)
      have : pfx ++ [rel] ≠ pfx ++ [q.1] := by
        intro hc
        exact hne (by simpa using List.append_cancel_left hc)
      simp [this]
    rw [getParams, hstep]
    dsimp only
    rw [ih (k + 1) _ hndr.2 hfresh2]
    simp [specValues, mkParams, List.append_assoc]

theorem getParams_reuse (cls : InnerLayerClass α π) (pfx : List String)
    (specs : List (String × List Nat)) :
    ∀ (k : Nat) (st : TFState π),
    (∀ p ∈ specs, (findVar st (pfx ++ [p.1])).isSome) →
    ∃ vals, getParams cls pfx true specs k st = .ok (vals, st) := by
  induction specs with
  | nil => intro k st _; exact ⟨[], by simp [getParams]⟩
  | cons p rest ih =>
    intro k st hfound
    obtain ⟨rel, shp⟩ := p
    obtain ⟨v, hv⟩ := Option.isSome_iff_exists.mp
      (hfound (rel, shp) (List.mem_cons_self _ _))
    obtain ⟨vals, hvals⟩ := ih (k + 1) st (fun q hq => hfound q (List.mem_cons_of_mem _ hq))
    refine ⟨v.value :: vals, ?_⟩
    rw [getParams]
    have hg : getVariable st true (pfx ++ [rel]) shp (cls.init k) = .ok (v.value, st) := by
      simp [getVariable, hv]
    rw [hg]
    dsimp only
    rw [hvals]

theorem mkParams_length (cls : InnerLayerClass α π) (pfx : List String) :
    ∀ (specs : List (String × List Nat)) (k : Nat),
    (mkParams cls pfx specs k).length = specs.length := by
  intro specs
  induction specs with
  | nil => intro k; rfl
  | cons p rest ih => obtain ⟨rel, shp⟩ := p; intro k; simp [mkParams, ih (k + 1)]

theorem mkParams_name_mem (cls : InnerLayerClass α π) (pfx : List String) :
    ∀ (specs : List (String × List Nat)) (k : Nat) (v : Variable π),
    v ∈ mkParams cls pfx specs k → ∃ p ∈ specs, v.name = pfx ++ [p.1] := by
  intro specs
  induction specs with
  | nil => intro k v hv; cases hv
  | cons p rest ih =>
    obtain ⟨rel, shp⟩ := p
    intro k v hv
    rcases List.mem_cons.mp hv with hEq | hMem
    · exact ⟨(rel, shp), List.mem_cons_self _ _, by rw [hEq]⟩
    · obtain ⟨q, hq, hn⟩ := ih (k + 1) v hMem
      exact ⟨q, List.mem_cons_of_mem _ hq, hn⟩

theorem findVar_mkParams_isSome (cls : InnerLayerClass α π) (pfx : List String) :
    ∀ (specs : List (String × List Nat)) (k : Nat) (p : String × List Nat),
    p ∈ specs →
    (findVar (⟨mkParams cls pfx specs k⟩ : TFState π) (pfx ++ [p.1])).isSome := by
  intro specs
  induction specs with
  | nil => intro k p h; cases h
  | cons q rest ih =>
    obtain ⟨rel, shp⟩ := q
    intro k p hp
    rw [mkParams, findVar_cons]
    rcases List.mem_cons.mp hp with hEq | hMem
    · subst hEq; simp
    · split
      · simp
      · exact ih (k + 1) p hMem

theorem getCollection_mkParams (cls : InnerLayerClass α π) (a : String)
    (t : List String) (specs : List (String × List Nat)) (k : Nat) :
    getCollection (⟨mkParams cls (a :: t) specs k⟩ : TFState π) [a] =
      mkParams cls (a :: t) specs k := by
  unfold getCollection
  refine List.filter_eq_self.mpr ?_
  intro v hv
  obtain ⟨p, _, hname⟩ := mkParams_name_mem cls (a :: t) specs k v hv
  rw [hname]
  show List.isPrefixOf [a] ((a :: t) ++ [p.1]) = true
  simp [List.isPrefixOf]

/-! ### Loop lemmas -/

theorem tdLoop_reuse (cls : InnerLayerClass α π) (layerName anm : String)
    (rest : List (Tensor2 α)) :
    ∀ (m : Nat) (st : TFState π),
    (∀ p ∈ cls.paramSpecs, (findVar st ([layerName, anm] ++ [p.1])).isSome) →
    ∃ outs,
      tdLoop cls layerName ⟨some anm⟩ false rest (m + 1) st
          (some (getCollection st [layerName])) =
        .ok (outs, st, some (getCollection st [layerName])) ∧
      List.Forall₂ (fun sl o => ∃ vals, o = cls.compute vals sl) rest outs := by
  induction rest with
  | nil => intro m st _; exact ⟨[], by rw [tdLoop], List.Forall₂.nil⟩
  | cons s rest ih =>
    intro m st hfound
    obtain ⟨vals, hvals⟩ :=
      getParams_reuse cls ([layerName] ++ [anm]) cls.paramSpecs 0 st hfound
    obtain ⟨outs, hloop, hfa⟩ := ih (m + 1) st hfound
    refine ⟨cls.compute vals s :: outs, ?_, List.forall₂_cons.mpr ⟨⟨vals, rfl⟩, hfa⟩⟩
    rw [tdLoop]
    have hflag : reuseFlag false (m + 1) = true := by simp [reuseFlag]
    have hinst : innerInstantiate cls [layerName] anm (reuseFlag false (m + 1)) s st =
        .ok (cls.compute vals s, st) := by
      rw [hflag, innerInstantiate, hvals]
    rw [show (⟨some anm⟩ : LayerArgs).getName = .ok anm from rfl]
    dsimp only
    rw [hinst]
    dsimp only
    rw [hloop]

theorem tdLoop_spec (cls : InnerLayerClass α π) (layerName anm : String)
    (s : Tensor2 α) (rest : List (Tensor2 α)) (hnd : relsNodup cls) :
    ∃ outs,
      tdLoop cls layerName ⟨some anm⟩ false (s :: rest) 0 ⟨[]⟩ none =
        .ok (cls.compute (specValues cls cls.paramSpecs 0) s :: outs,
             ⟨mkParams cls [layerName, anm] cls.paramSpecs 0⟩,
             some (mkParams cls [layerName, anm] cls.paramSpecs 0)) ∧
      List.Forall₂ (fun sl o => ∃ vals, o = cls.compute vals sl) rest outs := by
  have hfresh : ∀ p ∈ cls.paramSpecs,
      findVar (⟨[]⟩ : TFState π) ([layerName, anm] ++ [p.1]) = none := fun _ _ => rfl
  have hcreate := getParams_fresh cls [layerName, anm] cls.paramSpecs 0 [] hnd hfresh
  have hcol : getCollection
      (⟨mkParams cls [layerName, anm] cls.paramSpecs 0⟩ : TFState π) [layerName] =
      mkParams cls [layerName, anm] cls.paramSpecs 0 :=
    getCollection_mkParams cls layerName [anm] cls.paramSpecs 0
  have hfound : ∀ p ∈ cls.paramSpecs,
      (findVar (⟨mkParams cls [layerName, anm] cls.paramSpecs 0⟩ : TFState π)
        ([layerName, anm] ++ [p.1])).isSome :=
    fun p hp => findVar_mkParams_isSome cls [layerName, anm] cls.paramSpecs 0 p hp
  obtain ⟨outs, hloop, hfa⟩ :=
    tdLoop_reuse cls layerName anm rest 0 ⟨mkParams cls [layerName, anm] cls.paramSpecs 0⟩
      hfound
  refine ⟨outs, ?_, hfa⟩
  have hinst : innerInstantiate cls [layerName] anm (reuseFlag false 0) s ⟨[]⟩ =
      .ok (cls.compute (specValues cls cls.paramSpecs 0) s,
           ⟨mkParams cls [layerName, anm] cls.paramSpecs 0⟩) := by
    rw [show reuseFlag false 0 = false from rfl, innerInstantiate]
    rw [show ([layerName] ++ [anm] : List String) = [layerName, anm] from rfl, hcreate]
    simp
  rw [tdLoop]
  rw [show (⟨some anm⟩ : LayerArgs).getName = .ok anm from rfl]
  dsimp only
  rw [hinst]
  dsimp only
  rw [hcol] at hloop ⊢
  rw [hloop]

/-! ### Main call behaviour and shape lemmas -/

theorem unstack1_succ (m : Nat) (data : Tensor3 α) :
    unstack1 (m + 1) data =
      (data.map (fun mm => mm.getD 0 [])) ::
        (List.range m).map (fun i => data.map (fun mm => mm.getD (i + 1) [])) := by
  unfold unstack1
  rw [List.range_succ_eq_map]
  simp [List.map_map, Function.comp_def, Nat.succ_eq_add_one]

theorem timeDistributedCall_spec (cls : InnerLayerClass α π) (layerName anm : String)
    (B T D : Nat) (data : Tensor3 α) (hnd : relsNodup cls) (hT : 1 ≤ T) :
    ∃ rest outs,
      unstack1 T data = (data.map (fun mm => mm.getD 0 [])) :: rest ∧
      timeDistributedCall cls layerName ⟨some anm⟩ (.tensor ⟨(B, T, D), data⟩) false ⟨[]⟩ =
        .ok (⟨transpose102
                (cls.compute (specValues cls cls.paramSpecs 0)
                    (data.map (fun mm => mm.getD 0 [])) :: outs),
              mkParams cls [layerName, anm] cls.paramSpecs 0⟩,
             ⟨mkParams cls [layerName, anm] cls.paramSpecs 0⟩) ∧
      List.Forall₂ (fun sl o => ∃ vals, o = cls.compute vals sl) rest outs := by
  obtain ⟨m, rfl⟩ : ∃ m, T = m + 1 := ⟨T - 1, (Nat.succ_pred_eq_of_pos hT).symm⟩
  obtain ⟨outs, hloop, hfa⟩ :=
    tdLoop_spec cls layerName anm (data.map (fun mm => mm.getD 0 []))
      ((List.range m).map (fun i => data.map (fun mm => mm.getD (i + 1) []))) hnd
  refine ⟨_, outs, unstack1_succ m data, ?_, hfa⟩
  unfold timeDistributedCall
  dsimp only [normalize]
  rw [unstack1_succ m data, hloop]
  rfl

theorem unstack1_wf {B T D : Nat} {data : Tensor3 α} (hwf : wf3 B T D data) :
    ∀ s ∈ unstack1 T data, wf2 B D s := by
  intro s hs
  unfold unstack1 at hs
  obtain ⟨i, hi, rfl⟩ := List.mem_map.mp hs
  have hiT : i < T := List.mem_range.mp hi
  constructor
  · simpa using hwf.1
  · intro r hr
    obtain ⟨mm, hmm, rfl⟩ := List.mem_map.mp hr
    obtain ⟨hlen, hrows⟩ := hwf.2 mm hmm
    have hilt : i < mm.length := hlen ▸ hiT
    rw [List.getD_eq_getElem mm [] hilt]
    exact (hwf.2 mm hmm).2 _ (List.getElem_mem hilt)

theorem transpose102_wf {B T Dp : Nat} {xs : List (Tensor2 α)}
    (hlen : xs.length = T) (hT : 1 ≤ T) (hwf : ∀ s ∈ xs, wf2 B Dp s) :
    wf3 B T Dp (transpose102 xs) := by
  have hdim : dim0 xs = B := by
    cases xs with
    | nil => simp at hlen; exact absurd hlen (by omega)
    | cons s rest => simpa [dim0] using (hwf s (List.mem_cons_self _ _)).1
  constructor
  · simp [transpose102, hdim]
  · intro mm hmm
    unfold transpose102 at hmm
    obtain ⟨b, hb, rfl⟩ := List.mem_map.mp hmm
    have hbB : b < B := by rw [← hdim]; exact List.mem_range.mp hb
    constructor
    · simpa using hlen
    · intro r hr
      obtain ⟨s, hsmem, rfl⟩ := List.mem_map.mp hr
      have hwfs := hwf s hsmem
      have hblt : b < s.length := hwfs.1 ▸ hbB
      rw [List.getD_eq_getElem s [] hblt]
      exact hwfs.2 _ (List.getElem_mem hblt)

theorem forall₂_mem_right {γ δ : Type} {R : γ → δ → Prop} {l1 : List γ} {l2 : List δ}
    (h : List.Forall₂ R l1 l2) (b : δ) (hb : b ∈ l2) : ∃ a ∈ l1, R a b := by
  induction h with
  | nil => cases hb
  | cons hR _ ih =>
    rcases List.mem_cons.mp hb with rfl | hmem
    · exact ⟨_, List.mem_cons_self _ _, hR⟩
    · obtain ⟨a, ha, hab⟩ := ih hmem
      exact ⟨a, List.mem_cons_of_mem _ ha, hab⟩

theorem innerInstantiate_fresh (cls : InnerLayerClass α π) (layerName anm : String)
    (s : Tensor2 α) (hnd : relsNodup cls) :
    innerInstantiate cls [layerName] anm false s ⟨[]⟩ =
      .ok (cls.compute (specValues cls cls.paramSpecs 0) s,
           ⟨mkParams cls [layerName, anm] cls.paramSpecs 0⟩) := by
  have hfresh : ∀ p ∈ cls.paramSpecs,
      findVar (⟨[]⟩ : TFState π) ([layerName, anm] ++ [p.1]) = none := fun _ _ => rfl
  rw [innerInstantiate]
  rw [show ([layerName] ++ [anm] : List String) = [layerName, anm] from rfl]
  rw [getParams_fresh cls [layerName, anm] cls.paramSpecs 0 [] hnd hfresh]
  simp

theorem clsEx_compute_wf (ps : List Nat) (s : Tensor2 Nat) (hs : wf2 2 2 s) :
    wf2 2 1 (clsEx.compute ps s) := by
  constructor
  · show (s.map _).length = 2
    simpa using hs.1
  · intro r hr
    have hr2 : r ∈ s.map (fun rr => [rr.sum + ps.sum]) := hr
    obtain ⟨rr, _, rfl⟩ := List.mem_map.mp hr2
    rfl

/-! ### Claim theorems -/

/-- C1: for every construction of the layer over a 3-D input with T
timesteps (T ≥ 1, fresh graph, distinct inner parameter names), the set
of trainable parameter tensors created is exactly
`mkParams cls [layerName, anm] cls.paramSpecs 0` — one variable per
parameter specification of the inner layer class, with T nowhere in the
expression.  Two constructions over inputs with different timestep
counts (e.g. T = 5 and T = 20) create equal parameter sets, the count
equals `cls.paramSpecs.length` — the number created by a single
instantiation of the inner layer class — and the registered parameter
set coincides with the single live parameter set in the registry. -/
theorem c1_weight_sharing (cls : InnerLayerClass α π) (layerName anm : String)
    (B T D B' T' : Nat) (data data' : Tensor3 α)
    (hnd : relsNodup cls) (_hwf : wf3 B T D data) (_hwf' : wf3 B' T' D data')
    (hT : 1 ≤ T) (hT' : 1 ≤ T') :
    ∃ res st1 res' st1',
      timeDistributedCall cls layerName ⟨some anm⟩ (.tensor ⟨(B, T, D), data⟩)
          false ⟨[]⟩ = .ok (res, st1) ∧
      timeDistributedCall cls layerName ⟨some anm⟩ (.tensor ⟨(B', T', D), data'⟩)
          false ⟨[]⟩ = .ok (res', st1') ∧
      st1.registry = mkParams cls [layerName, anm] cls.paramSpecs 0 ∧
      st1'.registry = st1.registry ∧
      res.all_params = st1.registry ∧
      res'.all_params = res.all_params ∧
      st1.registry.length = cls.paramSpecs.length ∧
      (∀ s : Tensor2 α, ∃ o st2,
        innerInstantiate cls [layerName] anm false s ⟨[]⟩ = .ok (o, st2) ∧
        st2.registry = st1.registry) := by
  obtain ⟨rest, outs, _, hcall, _⟩ :=
    timeDistributedCall_spec cls layerName anm B T D data hnd hT
  obtain ⟨rest', outs', _, hcall', _⟩ :=
    timeDistributedCall_spec cls layerName anm B' T' D data' hnd hT'
  refine ⟨_, _, _, _, hcall, hcall', rfl, rfl, rfl, rfl,
    mkParams_length cls [layerName, anm] cls.paramSpecs 0, ?_⟩
  intro s
  exact ⟨_, _, innerInstantiate_fresh cls layerName anm s hnd, rfl⟩

/-- C2: for every valid 3-D input of shape (B, T, D) with T ≥ 1 and every
inner layer class whose compute function maps (B, D) slices to (B, Dp)
slices, the call succeeds and the output tensor is well-formed with
shape (B, T, Dp); in particular the number of output timesteps equals
the number of input timesteps. -/
theorem c2_output_shape (cls : InnerLayerClass α π) (layerName anm : String)
    (B T D Dp : Nat) (data : Tensor3 α)
    (hnd : relsNodup cls) (hwf : wf3 B T D data) (hT : 1 ≤ T)
    (hcomp : ∀ ps s, wf2 B D s → wf2 B Dp (cls.compute ps s)) :
    ∃ res st1,
      timeDistributedCall cls layerName ⟨some anm⟩ (.tensor ⟨(B, T, D), data⟩)
          false ⟨[]⟩ = .ok (res, st1) ∧
      wf3 B T Dp res.outputs := by
  obtain ⟨rest, outs, hx, hcall, hfa⟩ :=
    timeDistributedCall_spec cls layerName anm B T D data hnd hT
  refine ⟨_, _, hcall, ?_⟩
  have hxlen : (unstack1 T data).length = T := by simp [unstack1]
  have hrestlen : rest.length = T - 1 := by
    rw [hx] at hxlen
    simp at hxlen
    omega
  have houtslen : outs.length = T - 1 := hfa.length_eq ▸ hrestlen
  have hslices := unstack1_wf hwf
  have hhead : wf2 B Dp
      (cls.compute (specValues cls cls.paramSpecs 0)
        (data.map (fun mm => mm.getD 0 []))) := by
    refine hcomp _ _ (hslices _ ?_)
    rw [hx]
    exact List.mem_cons_self _ _
  refine transpose102_wf ?_ hT ?_
  · simp [houtslen]; omega
  · intro o ho
    rcases List.mem_cons.mp ho with rfl | hmem
    · exact hhead
    · obtain ⟨sl, hsl, vals, rfl⟩ := forall₂_mem_right hfa o hmem
      refine hcomp _ _ (hslices _ ?_)
      rw [hx]
      exact List.mem_cons_of_mem _ hsl

/-- C3: iteration 0 of the per-timestep loop runs with the enclosing
scope's reuse flag (creation, on a fresh graph) and every iteration
i ≥ 1 runs with the reuse flag forced to true; consequently, running the
loop over the first slice alone already produces the full parameter
registry, and running it over all slices produces exactly the same
registry — no parameters are allocated after the first iteration. -/
theorem c3_first_creates_rest_reuse (cls : InnerLayerClass α π)
    (layerName anm : String) (s : Tensor2 α) (rest : List (Tensor2 α))
    (hnd : relsNodup cls) :
    (∀ b : Bool, reuseFlag b 0 = b) ∧
    (∀ (b : Bool) (i : Nat), i ≠ 0 → reuseFlag b i = true) ∧
    (∃ outs st1 lw outs1 st2 lw2,
      tdLoop cls layerName ⟨some anm⟩ false (s :: rest) 0 ⟨[]⟩ none =
        .ok (outs, st1, lw) ∧
      tdLoop cls layerName ⟨some anm⟩ false [s] 0 ⟨[]⟩ none =
        .ok (outs1, st2, lw2) ∧
      st2.registry = mkParams cls [layerName, anm] cls.paramSpecs 0 ∧
      st1.registry = st2.registry) := by
  refine ⟨fun b => rfl, fun b i hi => by simp [reuseFlag, hi], ?_⟩
  obtain ⟨outs, hloop, _⟩ := tdLoop_spec cls layerName anm s rest hnd
  obtain ⟨outs1, hloop1, _⟩ := tdLoop_spec cls layerName anm s [] hnd
  exact ⟨_, _, _, _, _, _, hloop, hloop1, rfl, rfl⟩

/-- C4: an input arriving as a sequence of per-timestep (B, D) tensors is
normalized by stacking the sequence and reordering the axes with the
permutation (1, 0, 2), giving a (batch, time, feature) tensor of shape
(B, len ts, D) with well-formed data; an input that is already a single
tensor is left unchanged. -/
theorem c4_sequence_normalization (t0 : TFTensor3 α) (ts : List (TFTensor2 α))
    (B D : Nat) (hne : ts ≠ [])
    (hsh : ∀ t ∈ ts, t.shape = (B, D) ∧ wf2 B D t.data) :
    normalize (.tensor t0) = t0 ∧
    normalize (.seq ts) =
      ⟨(B, ts.length, D), transpose102 (ts.map (fun t => t.data))⟩ ∧
    wf3 B ts.length D (normalize (.seq ts)).data := by
  have hTpos : 1 ≤ ts.length := List.length_pos.mpr hne
  have hwfall : ∀ s ∈ ts.map (fun t => t.data), wf2 B D s := by
    intro s hs
    obtain ⟨t, ht, rfl⟩ := List.mem_map.mp hs
    exact (hsh t ht).2
  have hshape : seqShape ts = (B, ts.length, D) := by
    obtain ⟨t, ts', rfl⟩ := List.exists_cons_of_ne_nil hne
    have := (hsh t (List.mem_cons_self _ _)).1
    simp [seqShape, this]
  refine ⟨rfl, ?_, ?_⟩
  · simp [normalize, hshape]
  · simp only [normalize]
    exact transpose102_wf (by simp) hTpos hwfall

/-- C5: when the configuration mapping lacks the `'name'` key, the call
fails with an exception before any output is produced or registered: for
a nonempty timestep loop the dictionary lookup `layer_args['name']`
raises `KeyError` in the first iteration, and for an empty loop the
parameter-registration step raises `AttributeError` — in every case the
result is an error, never a registered output. -/
theorem c5_missing_name_key_fails (cls : InnerLayerClass α π) (layerName : String)
    (input : TDInput α) (outerReuse : Bool) (st : TFState π) :
    ∃ e, timeDistributedCall cls layerName ⟨none⟩ input outerReuse st = .error e := by
  unfold timeDistributedCall
  dsimp only
  cases hx : unstack1 (normalize input).shape.2.1 (normalize input).data with
  | nil => exact ⟨.indexError "list index out of range", rfl⟩
  | cons s rest => exact ⟨.keyError "name", rfl⟩

/-- C6: the parameter set registered at the end of a successful call
equals the set of variables visible in the layer's scope after the first
(creating) iteration — running the loop on just the first slice yields a
state whose scope collection is exactly the registered `all_params`, and
the collection does not grow by the end of the full call. -/
theorem c6_captured_params_stable (cls : InnerLayerClass α π)
    (layerName anm : String) (B T D : Nat) (data : Tensor3 α)
    (hnd : relsNodup cls) (hT : 1 ≤ T) :
    ∃ res st1 outs1 st2 lw2,
      timeDistributedCall cls layerName ⟨some anm⟩ (.tensor ⟨(B, T, D), data⟩)
          false ⟨[]⟩ = .ok (res, st1) ∧
      tdLoop cls layerName ⟨some anm⟩ false [data.map (fun mm => mm.getD 0 [])]
          0 ⟨[]⟩ none = .ok (outs1, st2, lw2) ∧
      lw2 = some (getCollection st2 [layerName]) ∧
      res.all_params = getCollection st2 [layerName] ∧
      res.all_params = getCollection st1 [layerName] := by
  obtain ⟨rest, outs, _, hcall, _⟩ :=
    timeDistributedCall_spec cls layerName anm B T D data hnd hT
  obtain ⟨outs1, hloop1, _⟩ :=
    tdLoop_spec cls layerName anm (data.map (fun mm => mm.getD 0 [])) [] hnd
  have hcol := getCollection_mkParams cls layerName [anm] cls.paramSpecs 0
  exact ⟨_, _, _, _, _, hcall, hloop1, by rw [hcol], by rw [hcol], by rw [hcol]⟩

/-- C7: calling the layer on an input with exactly one timestep behaves
identically to one direct instantiation of the inner layer class on the
sole timestep slice: the call succeeds, its output tensor is exactly the
direct output slice restacked along the time axis, and the registered
parameter set and final registry coincide with those of the direct
instantiation. -/
theorem c7_single_timestep_refinement (cls : InnerLayerClass α π)
    (layerName anm : String) (B D : Nat) (data : Tensor3 α)
    (hnd : relsNodup cls) (_hwf : wf3 B 1 D data) :
    ∃ res st1 o st2,
      timeDistributedCall cls layerName ⟨some anm⟩ (.tensor ⟨(B, 1, D), data⟩)
          false ⟨[]⟩ = .ok (res, st1) ∧
      innerInstantiate cls [layerName] anm false
          (data.map (fun mm => mm.getD 0 [])) ⟨[]⟩ = .ok (o, st2) ∧
      res.outputs = transpose102 [o] ∧
      res.all_params = st2.registry ∧
      st1 = st2 := by
  obtain ⟨rest, outs, hx, hcall, hfa⟩ :=
    timeDistributedCall_spec cls layerName anm B 1 D data hnd (le_refl 1)
  have hrest : rest = [] := by
    have h1 := unstack1_succ 0 data
    simp only [List.range_zero, List.map_nil] at h1
    have h2 := hx.symm.trans h1
    injection h2
  subst hrest
  have houts : outs = [] := List.forall₂_nil_left_iff.mp hfa
  subst houts
  exact ⟨_, _, _, _, hcall,
    innerInstantiate_fresh cls layerName anm _ hnd, rfl, rfl, rfl⟩

/-- C8: the string-description operation wraps each optional attribute
access in a handler, so a missing `layer_class` or `layer_args`
attribute silently omits the corresponding fragment instead of raising:
the operation always returns a rendered string, and the fragment list is
exactly the present attributes in order. -/
theorem c8_str_tolerates_missing (c a : String)
    (baseStr : List String → String) (inst : TDInstance) :
    tdStr inst baseStr = .ok (baseStr (tdStrFragments inst)) ∧
    tdStrFragments ⟨none, none⟩ = [] ∧
    tdStrFragments ⟨some c, none⟩ = ["layer_class: " ++ c] ∧
    tdStrFragments ⟨none, some a⟩ = ["layer_args: " ++ a] ∧
    tdStrFragments ⟨some c, some a⟩ =
      ["layer_class: " ++ c, "layer_args: " ++ a] :=
  ⟨rfl, rfl, rfl, rfl, rfl⟩

/-- C9: invoking the string-description operation leaves the instance
state unchanged, and invoking it twice on unchanged state yields the
same string both times. -/
theorem c9_str_idempotent (inst : TDInstance) (baseStr : List String → String) :
    (tdStrRun inst baseStr).2 = inst ∧
    (tdStrRun ((tdStrRun inst baseStr).2) baseStr).1 =
      (tdStrRun inst baseStr).1 :=
  ⟨rfl, rfl⟩

/-- C10 counterexample: at the concrete zero-timestep input
`(2, 0, 2)` with the `'name'` key absent, the call fails with
`IndexError` from `tf.stack` on the empty slice list (line 117), not
with the attribute-access error at the parameter-registration step
(line 120) that the claim asserts — line 120 is never reached. -/
theorem c10_counterexample :
    timeDistributedCall clsEx "td" ⟨none⟩ (.tensor ⟨(2, 0, 2), []⟩) false ⟨[]⟩ =
      .error (.indexError "list index out of range") ∧
    timeDistributedCall clsEx "td" ⟨none⟩ (.tensor ⟨(2, 0, 2), []⟩) false ⟨[]⟩ ≠
      .error (.attributeError "_local_weights") :=
  ⟨rfl, fun h => TLError.noConfusion (Except.error.inj h)⟩

/-- C10 (amended): on an input with zero timesteps the per-timestep loop
never executes, so `_local_weights` is never assigned and no
missing-naming-key `KeyError` is raised even when the `'name'` key is
absent; the call fails before the parameter-registration step, with
`IndexError` raised by `tf.stack` on the empty per-timestep output list
at line 117 — regardless of the configuration mapping, and with no
output or parameter registered. -/
theorem c10_zero_timesteps_index_error (cls : InnerLayerClass α π)
    (layerName : String) (args : LayerArgs) (B D : Nat) (data : Tensor3 α)
    (outerReuse : Bool) (st : TFState π) :
    timeDistributedCall cls layerName args (.tensor ⟨(B, 0, D), data⟩)
        outerReuse st = .error (.indexError "list index out of range") := by
  unfold timeDistributedCall
  simp [normalize, unstack1, tdLoop, stackAxis1]

/-! ### Witnesses -/

/-- Witness for C1 at a concrete inner layer class and concrete (2, 3, 2)
and (2, 5, 2) inputs. -/
theorem c1_witness :
    relsNodup clsEx ∧ wf3 2 3 2 dataEx ∧ wf3 2 5 2 dataEx5 ∧
    (1 : Nat) ≤ 3 ∧ (1 : Nat) ≤ 5 ∧
    (∃ res st1 res' st1',
      timeDistributedCall clsEx "td" ⟨some "dense"⟩ (.tensor ⟨(2, 3, 2), dataEx⟩)
          false ⟨[]⟩ = .ok (res, st1) ∧
      timeDistributedCall clsEx "td" ⟨some "dense"⟩ (.tensor ⟨(2, 5, 2), dataEx5⟩)
          false ⟨[]⟩ = .ok (res', st1') ∧
      st1.registry = mkParams clsEx ["td", "dense"] clsEx.paramSpecs 0 ∧
      st1'.registry = st1.registry ∧
      res.all_params = st1.registry ∧
      res'.all_params = res.all_params ∧
      st1.registry.length = clsEx.paramSpecs.length ∧
      (∀ s : Tensor2 Nat, ∃ o st2,
        innerInstantiate clsEx ["td"] "dense" false s ⟨[]⟩ = .ok (o, st2) ∧
        st2.registry = st1.registry)) :=
  ⟨by decide, by decide, by decide, by decide, by decide,
   c1_weight_sharing clsEx "td" "dense" 2 3 2 2 5 dataEx dataEx5
     (by decide) (by decide) (by decide) (by decide) (by decide)⟩

/-- Witness for C2 at a concrete inner layer class producing feature size
1 on a concrete (2, 3, 2) input. -/
theorem c2_witness :
    relsNodup clsEx ∧ wf3 2 3 2 dataEx ∧ (1 : Nat) ≤ 3 ∧
    (∀ ps s, wf2 2 2 s → wf2 2 1 (clsEx.compute ps s)) ∧
    (∃ res st1,
      timeDistributedCall clsEx "td" ⟨some "dense"⟩ (.tensor ⟨(2, 3, 2), dataEx⟩)
          false ⟨[]⟩ = .ok (res, st1) ∧
      wf3 2 3 1 res.outputs) :=
  ⟨by decide, by decide, by decide, fun ps s hs => clsEx_compute_wf ps s hs,
   c2_output_shape clsEx "td" "dense" 2 3 2 1 dataEx (by decide) (by decide)
     (by decide) (fun ps s hs => clsEx_compute_wf ps s hs)⟩

/-- Witness for C3 at a concrete inner layer class, first slice, and one
further slice. -/
theorem c3_witness :
    relsNodup clsEx ∧
    ((∀ b : Bool, reuseFlag b 0 = b) ∧
     (∀ (b : Bool) (i : Nat), i ≠ 0 → reuseFlag b i = true) ∧
     (∃ outs st1 lw outs1 st2 lw2,
       tdLoop clsEx "td" ⟨some "dense"⟩ false
           ([[1, 2], [7, 8]] :: [[[3, 4], [9, 10]]]) 0 ⟨[]⟩ none =
         .ok (outs, st1, lw) ∧
       tdLoop clsEx "td" ⟨some "dense"⟩ false [[[1, 2], [7, 8]]] 0 ⟨[]⟩ none =
         .ok (outs1, st2, lw2) ∧
       st2.registry = mkParams clsEx ["td", "dense"] clsEx.paramSpecs 0 ∧
       st1.registry = st2.registry)) :=
  ⟨by decide,
   c3_first_creates_rest_reuse clsEx "td" "dense" [[1, 2], [7, 8]]
     [[[3, 4], [9, 10]]] (by decide)⟩

/-- Witness for C4 at a concrete two-element sequence of (2, 2) tensors
and a concrete already-unified tensor. -/
theorem c4_witness :
    seqEx ≠ [] ∧
    (∀ t ∈ seqEx, t.shape = (2, 2) ∧ wf2 2 2 t.data) ∧
    (normalize (.tensor ⟨(2, 3, 2), dataEx⟩) = ⟨(2, 3, 2), dataEx⟩ ∧
     normalize (.seq seqEx) =
       ⟨(2, seqEx.length, 2), transpose102 (seqEx.map (fun t => t.data))⟩ ∧
     wf3 2 seqEx.length 2 (normalize (.seq seqEx)).data) :=
  ⟨by decide, by decide,
   c4_sequence_normalization ⟨(2, 3, 2), dataEx⟩ seqEx 2 2 (by decide) (by decide)⟩

/-- Witness for C6 at a concrete inner layer class and a concrete
(2, 3, 2) input. -/
theorem c6_witness :
    relsNodup clsEx ∧ (1 : Nat) ≤ 3 ∧
    (∃ res st1 outs1 st2 lw2,
      timeDistributedCall clsEx "td" ⟨some "dense"⟩ (.tensor ⟨(2, 3, 2), dataEx⟩)
          false ⟨[]⟩ = .ok (res, st1) ∧
      tdLoop clsEx "td" ⟨some "dense"⟩ false [dataEx.map (fun mm => mm.getD 0 [])]
          0 ⟨[]⟩ none = .ok (outs1, st2, lw2) ∧
      lw2 = some (getCollection st2 ["td"]) ∧
      res.all_params = getCollection st2 ["td"] ∧
      res.all_params = getCollection st1 ["td"]) :=
  ⟨by decide, by decide,
   c6_captured_params_stable clsEx "td" "dense" 2 3 2 dataEx (by decide) (by decide)⟩

/-- Witness for C7 at a concrete inner layer class and a concrete
(2, 1, 2) input. -/
theorem c7_witness :
    relsNodup clsEx ∧ wf3 2 1 2 dataEx1 ∧
    (∃ res st1 o st2,
      timeDistributedCall clsEx "td" ⟨some "dense"⟩ (.tensor ⟨(2, 1, 2), dataEx1⟩)
          false ⟨[]⟩ = .ok (res, st1) ∧
      innerInstantiate clsEx ["td"] "dense" false
          (dataEx1.map (fun mm => mm.getD 0 [])) ⟨[]⟩ = .ok (o, st2) ∧
      res.outputs = transpose102 [o] ∧
      res.all_params = st2.registry ∧
      st1 = st2) :=
  ⟨by decide, by decide,
   c7_single_timestep_refinement clsEx "td" "dense" 2 2 dataEx1
     (by decide) (by decide)⟩

end TimeDistributed
